import Mathlib

set_option maxRecDepth 4000

/-!
Verification of the schedule-generation, validation and swap-request core of the
`kubenine_hackathon` repository (Django app `hirethon_template.assign_task`).

The definitions below are a shallow embedding of the Python source:
  * `generateTimeslots`, `assignSlots` embed `generate_timeslots` and
    `assign_members_with_daily_limits` from
    `src/hirethon_template/assign_task/api/views.py` (the identical copies in
    `tasks.py` are the same code).
  * the swap-request model embeds `SwapRequest.is_valid`, `can_be_accepted`,
    `accept` from `src/hirethon_template/assign_task/models.py` and the
    accept/create endpoints from `api/views.py`.
  * `validateScheduleFn` embeds `validate_schedule`, and `generateScheduleView`
    embeds the `generate_schedule` endpoint.

Conventions: active members of a team are identified by their index
`0, 1, ..., n-1` in the ordered `active_members` list; times are measured in
hours from the Monday 00:00 that starts the scheduled week; calendar dates are
`startHour / 24`.  Django persistence is modelled as explicit state (lists of
rows); exceptions raised by `save()` are modelled by an explicit failure-point
parameter.
-/

/-- One row of the `Timeslot` table: start/end timestamps (in hours from the
week's Monday 00:00), the `is_break` flag and the nullable `assigned_member`. -/
structure Timeslot where
  startHour : Nat
  endHour : Nat
  isBreak : Bool
  assigned : Option Nat
deriving DecidableEq, Repr

/-- Property `Timeslot.duration_hours`: `(end_datetime - start_datetime)` in hours. -/
def Timeslot.durationHours (t : Timeslot) : Nat := t.endHour - t.startHour

/-- The 168 hourly timeslot rows created by the while-loop of
`generate_timeslots`: one slot per hour of `[week_start, week_start + 7d)`,
all with `is_break=False` and no assigned member yet. -/
def weekTimeslotRows : List Timeslot :=
  (List.range 168).map (fun h => { startHour := h, endHour := h + 1, isBreak := false, assigned := none })

/-- The `daily_timeslots` grouping of `generate_timeslots`: slots grouped by
`start_datetime.date()`.  Python dict insertion order gives the days in
chronological order, and each day's list keeps the chronological slot order
(so the later per-day `sort` is a no-op). -/
def dailyTimeslots : List (List Timeslot) :=
  (List.range 7).map (fun d => weekTimeslotRows.filter (fun t => t.startHour / 24 = d))

/-- In-memory state of `assign_members_with_daily_limits` while processing one
day: the `daily_member_hours` and `weekly_member_hours` dicts (both re-created
at the start of every day) and the rotating `member_index` cursor. -/
structure DayState where
  daily : Nat → Nat
  weekly : Nat → Nat
  memberIndex : Nat

/-- Increment of a member's entry in an hours dict (`daily_member_hours[m] += 1`). -/
def bump (f : Nat → Nat) (m : Nat) : Nat → Nat :=
  fun x => if x = m then f x + 1 else f x

/-- Fresh per-day state: all hour counters zero, `member_index = 0`. -/
def initDayState : DayState :=
  { daily := fun _ => 0, weekly := fun _ => 0, memberIndex := 0 }

/-- The inner `while attempts < len(active_members) and not assigned` loop of
`assign_members_with_daily_limits`: starting at `member_index`, try up to
`attempts` members in rotation order; a member can be assigned when
`daily_member_hours[m] < 8 and weekly_member_hours[m] < 40`.  Returns the
member found (if any) and the new `member_index` (which is advanced after every
attempt, including the successful one). -/
def scanRotation (n : Nat) (daily weekly : Nat → Nat) : Nat → Nat → Option Nat × Nat
  | idx, 0 => (none, idx)
  | idx, attempts + 1 =>
    if daily idx < 8 ∧ weekly idx < 40 then (some idx, (idx + 1) % n)
    else scanRotation n daily weekly ((idx + 1) % n) attempts

/-- Processing of one timeslot by `assign_members_with_daily_limits`: run the
rotation scan; on success assign that member and bump both hour dicts; if no
member qualifies, the emergency fallback assigns `active_members[0]` WITHOUT
updating either hours dict (the Boolean in the result records whether the
emergency path fired). -/
def assignSlot (n : Nat) (st : DayState) : (Nat × Bool) × DayState :=
  match scanRotation n st.daily st.weekly st.memberIndex n with
  | (some m, idx2) =>
    ((m, false), { daily := bump st.daily m, weekly := bump st.weekly m, memberIndex := idx2 })
  | (none, idx2) =>
    ((0, true), { daily := st.daily, weekly := st.weekly, memberIndex := idx2 })

/-- The `for timeslot in day_timeslots` loop over `k` slots of one day:
returns the per-slot `(assigned member, emergency?)` sequence and the final
day state. -/
def assignSlots (n : Nat) : Nat → DayState → List (Nat × Bool) × DayState
  | 0, st => ([], st)
  | k + 1, st =>
    let r := assignSlot n st
    let rest := assignSlots n k r.2
    (r.1 :: rest.1, rest.2)

/-- Write the computed per-slot assignments back into the day's timeslot rows
(`timeslot.assigned_member_id = member_id; timeslot.save()`).  The assignment
decisions read only the hour dicts and the cursor, never the slot rows, so the
sequence of decisions is exactly `assignSlots`. -/
def applyPattern : List Timeslot → List (Nat × Bool) → List Timeslot
  | [], _ => []
  | t :: ts, [] => t :: ts
  | t :: ts, p :: ps => { t with assigned := some p.1 } :: applyPattern ts ps

/-- Function `generate_timeslots` followed by `assign_members_with_daily_limits` for a
team whose ordered active-member list has `n` members: the 168 hourly rows are
created and grouped by day; if the member list is empty the assignment pass
returns early and every slot keeps `assigned_member = None`; otherwise each
day is processed independently with fresh hour dicts and cursor. -/
def generateTimeslots (n : Nat) : List (List Timeslot) :=
  if n = 0 then dailyTimeslots
  else dailyTimeslots.map (fun ds => applyPattern ds (assignSlots n ds.length initDayState).1)

/-- Total hours assigned to member `m` over the whole generated week. -/
def memberWeekTotal (n m : Nat) : Nat :=
  (((generateTimeslots n).flatten.filter (fun t => t.assigned = some m)).map Timeslot.durationHours).sum

/-- Number of slots of one generated day that were filled by the emergency
fallback (the `WARNING: Emergency assignment` branch). -/
def dayEmergencyCount (n : Nat) : Nat :=
  ((assignSlots n 24 initDayState).1.filter (fun p => p.2 = true)).length

/-- Result of an endpoint or serializer call: an error message / error value,
or a success payload (stands for the HTTP error response vs. 2xx response). -/
inductive Outcome (ε α : Type) where
  | error (e : ε)
  | ok (a : α)
deriving DecidableEq, Repr

/-- Status column of `SwapRequest` (`STATUS_CHOICES`). -/
inductive SwapStatus where
  | pending
  | accepted
  | rejected
  | processed
  | expired
deriving DecidableEq, Repr

/-- Persisted state relevant to one `SwapRequest` row together with the two
`Timeslot` rows it references: member ids of requester/responder, the current
`assigned_member` of each slot, the request's status, deadline (hours), and
the `processed_at` / `rejection_reason` columns. -/
structure SwapReqState where
  requester : Nat
  responder : Nat
  reqSlotAssigned : Option Nat
  respSlotAssigned : Option Nat
  status : SwapStatus
  deadline : Nat
  processedAt : Option Nat
  rejectionReason : String
deriving DecidableEq, Repr

/-- Method `SwapRequest.is_valid`: pending, before the deadline, and both slots still
assigned to their original parties. -/
def SwapReqState.is_valid (s : SwapReqState) (now : Nat) : Bool :=
  decide (s.status = SwapStatus.pending) && decide (now < s.deadline) &&
  decide (s.reqSlotAssigned = some s.requester) && decide (s.respSlotAssigned = some s.responder)

/-- Method `SwapRequest.can_be_accepted`: `is_valid() and status == 'pending'`. -/
def SwapReqState.can_be_accepted (s : SwapReqState) (now : Nat) : Bool :=
  s.is_valid now && decide (s.status = SwapStatus.pending)

/-- Which `save()` call inside the `try` block of `SwapRequest.accept` raises,
if any: `requester_slot.save()`, `responder_slot.save()`, or the final
`self.save()` that records the `processed` status. -/
inductive SaveFailure where
  | requesterSlotSave
  | responderSlotSave
  | requestSave
deriving DecidableEq, Repr

/-- Method `SwapRequest.accept`.  The in-memory member swap happens first; persistence
then proceeds save by save, so an exception at a given save keeps the effects
of the earlier saves (there is no transaction around the pair).  The `except`
branch sets `status='rejected'` with `rejection_reason="Processing failed: "`
plus the exception text and saves the request; when the final `self.save()` is
the one that raises, the in-memory `processed_at = now` set just before it is
persisted by that `except`-branch save as well.  Returns the Boolean result of
`accept()` and the resulting persisted state. -/
def SwapReqState.accept (s : SwapReqState) (now : Nat) (failAt : Option SaveFailure)
    (failMsg : String) : Bool × SwapReqState :=
  if s.can_be_accepted now then
    match failAt with
    | some SaveFailure.requesterSlotSave =>
      (false, { s with status := SwapStatus.rejected,
                       rejectionReason := "Processing failed: " ++ failMsg })
    | some SaveFailure.responderSlotSave =>
      (false, { s with reqSlotAssigned := s.respSlotAssigned,
                       status := SwapStatus.rejected,
                       rejectionReason := "Processing failed: " ++ failMsg })
    | some SaveFailure.requestSave =>
      (false, { s with reqSlotAssigned := s.respSlotAssigned,
                       respSlotAssigned := s.reqSlotAssigned,
                       processedAt := some now,
                       status := SwapStatus.rejected,
                       rejectionReason := "Processing failed: " ++ failMsg })
    | none =>
      (true, { s with reqSlotAssigned := s.respSlotAssigned,
                      respSlotAssigned := s.reqSlotAssigned,
                      status := SwapStatus.processed,
                      processedAt := some now })
  else (false, s)

/-- Method `SwapRequest.reject`: requires no state check beyond what callers do; sets
status and reason. -/
def SwapReqState.reject (s : SwapReqState) (reason : String) : SwapReqState :=
  { s with status := SwapStatus.rejected, rejectionReason := reason }

/-- The `accept_swap_request` endpoint (`api/views.py`): a 400 error when
`can_be_accepted()` is false, otherwise run `accept()`; a false result maps to
a 500 error.  Returns the HTTP-level outcome and the persisted state after the
call. -/
def acceptSwapRequestView (s : SwapReqState) (now : Nat) (failAt : Option SaveFailure)
    (failMsg : String) : Outcome String SwapReqState × SwapReqState :=
  if s.can_be_accepted now then
    match s.accept now failAt failMsg with
    | (true, s2) => (Outcome.ok s2, s2)
    | (false, s2) => (Outcome.error "Failed to process the swap", s2)
  else (Outcome.error "This swap request cannot be accepted", s)

/-- Data of one `Timeslot` row as seen by the swap-creation serializers: its
primary key, the team and week of its schedule, its `assigned_member` and its
start time (hours, possibly relative so kept as an integer). -/
structure SlotInfo where
  slotId : Nat
  teamId : Nat
  weekStart : Nat
  assignedMember : Option Nat
  startTime : Int
deriving DecidableEq, Repr

/-- A created `SwapRequest` row. -/
structure SwapRequestRow where
  requester : Nat
  responder : Nat
  requesterSlotId : Nat
  responderSlotId : Nat
  deadline : Int
  status : SwapStatus
deriving DecidableEq, Repr

/-- Method `SwapRequestSerializer.validate` (`assign_task/api/serializers.py`,
lines 213-254): same team, same week, requester owns requester slot, responder
owns responder slot, both memberships active.  NOTE: this serializer is only
ever instantiated on existing rows to render responses, so these checks never
run on the creation path. -/
def swapRequestSerializerValidate (requester responder : Nat)
    (requesterSlot responderSlot : SlotInfo)
    (requesterActive responderActive : Bool) : Outcome String Unit :=
  if requesterSlot.teamId ≠ responderSlot.teamId then
    Outcome.error "Both members must be in the same team"
  else if requesterSlot.weekStart ≠ responderSlot.weekStart then
    Outcome.error "Both slots must be in the same week"
  else if requesterSlot.assignedMember ≠ some requester then
    Outcome.error "Requester must own the requester slot"
  else if responderSlot.assignedMember ≠ some responder then
    Outcome.error "Responder must own the responder slot"
  else if requesterActive = false then
    Outcome.error "Requester is not an active team member"
  else if responderActive = false then
    Outcome.error "Responder is not an active team member"
  else Outcome.ok ()

/-- The `create_swap_request` endpoint: it validates with
`SwapRequestCreateSerializer`, which declares only the four id fields and
defines no `validate` method, so the only cross-field validation executed is
the `unique_together ('requester_slot', 'responder_slot')` constraint that DRF
turns into a UniqueTogetherValidator; on success `create` stores the row with
`deadline = min(start times) - 24h`. -/
def createSwapRequestView (existingPairs : List (Nat × Nat)) (requester responder : Nat)
    (requesterSlot responderSlot : SlotInfo) : Outcome String SwapRequestRow :=
  if (requesterSlot.slotId, responderSlot.slotId) ∈ existingPairs then
    Outcome.error "The fields requester_slot, responder_slot must make a unique set."
  else
    Outcome.ok { requester := requester, responder := responder,
                 requesterSlotId := requesterSlot.slotId,
                 responderSlotId := responderSlot.slotId,
                 deadline := min requesterSlot.startTime responderSlot.startTime - 24,
                 status := SwapStatus.pending }

/-- Classmethod `TeamScheduleConfig.get_min_team_size_for_scheduling`: the hardcoded
minimum team size (5). -/
def getMinTeamSizeForScheduling : Nat := 5

/-- Function `calculate_required_members` from `tasks.py`:
`ceil(24*7 / MAX_WEEKLY_HOURS)` via integer arithmetic. -/
def calculateRequiredMembers : Nat := (24 * 7 + 40 - 1) / 40

/-- Both ways the source computes the required member count agree on 5. -/
theorem calculateRequiredMembers_eq : calculateRequiredMembers = getMinTeamSizeForScheduling := by
  decide

/-- One `Schedule` row with its generated timeslots (grouped by day).
`weekStart` is a date counted in days from Monday 2024-01-01, so that
`weekStart % 7` is Python's `date.weekday()` (0 = Monday). -/
structure ScheduleRow where
  weekStart : Nat
  dayslots : List (List Timeslot)
deriving DecidableEq, Repr

/-- Typed failures of the `generate_schedule` endpoint before any mutation. -/
inductive GenError where
  | insufficientMembers (required current : Nat)
  | scheduleAlreadyExists
deriving DecidableEq, Repr

/-- The `generate_schedule` endpoint (`api/views.py`, lines 111-169) for a
given team: reject when the active member count is below
`get_min_team_size_for_scheduling()` (reporting required and current counts),
reject when a schedule for that week already exists, otherwise create the
`Schedule` row and generate/assign its timeslots.  The parsed
`week_start_date` is used as-is: the endpoint performs NO Monday check
(`ScheduleCreateSerializer` is imported but never used here).  Returns the
team's schedule list after the call and the endpoint outcome. -/
def generateScheduleView (schedules : List ScheduleRow) (memberCount weekStart : Nat) :
    List ScheduleRow × Outcome GenError ScheduleRow :=
  if memberCount < getMinTeamSizeForScheduling then
    (schedules, Outcome.error (GenError.insufficientMembers getMinTeamSizeForScheduling memberCount))
  else if schedules.any (fun s => s.weekStart = weekStart) then
    (schedules, Outcome.error GenError.scheduleAlreadyExists)
  else
    (schedules ++ [{ weekStart := weekStart, dayslots := generateTimeslots memberCount }],
     Outcome.ok { weekStart := weekStart, dayslots := generateTimeslots memberCount })

/-- Python's `date.weekday()` under the day numbering of `ScheduleRow`
(0 = Monday ... 6 = Sunday). -/
def weekdayOf (d : Nat) : Nat := d % 7

/-- Method `ScheduleCreateSerializer.validate_week_start_date`: reject any date whose
weekday is not Monday.  (No view invokes this serializer.) -/
def validateWeekStartDateField (d : Nat) : Outcome String Nat :=
  if weekdayOf d ≠ 0 then Outcome.error "Week start date must be a Monday"
  else Outcome.ok d

/-- The per-schedule body of `regenerate_schedules_for_team` (`tasks.py`,
lines 321-341): delete the existing timeslots of the schedule and re-run
`generate_timeslots` with the team's current active members. -/
def regenerateScheduleRow (memberCount : Nat) (row : ScheduleRow) : ScheduleRow :=
  { row with dayslots := generateTimeslots memberCount }

/-- Task `regenerate_schedules_for_team`: every schedule of the team with
`week_start_date >= from_date` is regenerated in place.  The task performs NO
minimum-headcount check before regenerating. -/
def regenerateSchedulesForTeam (memberCount fromDate : Nat) (schedules : List ScheduleRow) :
    List ScheduleRow :=
  schedules.map (fun row =>
    if fromDate ≤ row.weekStart then regenerateScheduleRow memberCount row else row)

/-- One `MemberWeeklyHours` row as read by the validator. -/
structure MemberWeeklyHoursRec where
  baseWeeklyLimit : Nat
  adjustedWeeklyLimit : Nat
  isWeekendOverride : Bool
deriving DecidableEq, Repr

/-- The error/warning messages accumulated by `validate_schedule`, with the
data interpolated into each message kept as constructor arguments. -/
inductive ValidationIssue where
  | unassignedTimeslots (count : Nat)
  | exceedsAdjustedWeeklyLimit (member total limit : Nat)
  | weekendOverrideWarning (member total limit : Nat)
  | excessiveOverage (member total base : Nat)
  | exceedsBaseWeeklyLimit (member total : Nat)
  | exceedsDailyHours (member day hours : Nat)
  | insufficientMembers (required current : Nat)
deriving DecidableEq, Repr

/-- Key order of a Python dict built by repeated `daily_hours.get(date, 0) +`
accumulation: first-seen order of the dates. -/
def datesInOrder (l : List Nat) : List Nat :=
  l.foldl (fun acc d => if d ∈ acc then acc else acc ++ [d]) []

/-- The weekly-limit checks of `validate_schedule` for one member: against the
adjusted limit (warning instead of error when the weekend override flag is
set), the `base + 8` excessive-overage ceiling, and the fallback `> 40` check
when the member has no `MemberWeeklyHours` row.  Returns (errors, warnings). -/
def memberWeeklyIssues (m totalHours : Nat) (record : Option MemberWeeklyHoursRec) :
    List ValidationIssue × List ValidationIssue :=
  match record with
  | some r =>
    let adjusted :=
      if r.adjustedWeeklyLimit < totalHours then
        if r.isWeekendOverride then
          (([] : List ValidationIssue),
           [ValidationIssue.weekendOverrideWarning m totalHours r.adjustedWeeklyLimit])
        else
          ([ValidationIssue.exceedsAdjustedWeeklyLimit m totalHours r.adjustedWeeklyLimit],
           ([] : List ValidationIssue))
      else ([], [])
    let overage :=
      if r.baseWeeklyLimit + 8 < totalHours then
        [ValidationIssue.excessiveOverage m totalHours r.baseWeeklyLimit]
      else []
    (adjusted.1 ++ overage, adjusted.2)
  | none =>
    ((if 40 < totalHours then [ValidationIssue.exceedsBaseWeeklyLimit m totalHours] else []), [])

/-- The per-date daily-hours check of `validate_schedule` for one member:
sum the member's hours per `start_datetime.date()` and flag every date with
more than 8 hours. -/
def memberDailyIssues (m : Nat) (memberSlots : List Timeslot) : List ValidationIssue :=
  (datesInOrder (memberSlots.map (fun t => t.startHour / 24))).filterMap (fun d =>
    let hours := ((memberSlots.filter (fun t => t.startHour / 24 = d)).map Timeslot.durationHours).sum
    if 8 < hours then some (ValidationIssue.exceedsDailyHours m d hours) else none)

/-- Result row of `validate_schedule` (`ScheduleValidation`). -/
structure ValidationResult where
  isValid : Bool
  hasSufficientMembers : Bool
  errors : List ValidationIssue
  warnings : List ValidationIssue
deriving DecidableEq, Repr

/-- Function `validate_schedule` (`api/views.py`, lines 492-565) over a schedule whose
team has active members `0..n-1` and whose timeslots are `days`:
unassigned-slot count, per-member weekly and daily checks (`recordOf m` is the
member's `MemberWeeklyHours` row, if any), and the headcount check, with
`is_valid = (len(errors) == 0)`. -/
def validateScheduleFn (n : Nat) (recordOf : Nat → Option MemberWeeklyHoursRec)
    (days : List (List Timeslot)) : ValidationResult :=
  let slots := days.flatten
  let unassignedCount := (slots.filter (fun t => t.assigned = none ∧ t.isBreak = false)).length
  let headErrors := if 0 < unassignedCount then [ValidationIssue.unassignedTimeslots unassignedCount] else []
  let memberResults := (List.range n).map (fun m =>
    let memberSlots := slots.filter (fun t => t.assigned = some m ∧ t.isBreak = false)
    let totalHours := (memberSlots.map Timeslot.durationHours).sum
    let weekly := memberWeeklyIssues m totalHours (recordOf m)
    (weekly.1 ++ memberDailyIssues m memberSlots, weekly.2))
  let hasSufficient := decide (getMinTeamSizeForScheduling ≤ n)
  let tailErrors :=
    if hasSufficient then []
    else [ValidationIssue.insufficientMembers getMinTeamSizeForScheduling n]
  let errors := headErrors ++ (memberResults.map Prod.fst).flatten ++ tailErrors
  { isValid := errors.isEmpty,
    hasSufficientMembers := hasSufficient,
    errors := errors,
    warnings := (memberResults.map Prod.snd).flatten }

/-- A successful rotation scan returns a member who passed the daily and
weekly checks; the member and the new cursor stay inside `0..n-1`. -/
theorem scanRotation_some_spec (n : Nat) (hn : 0 < n) (daily weekly : Nat → Nat) :
    ∀ (attempts idx m idx2 : Nat), idx < n →
      scanRotation n daily weekly idx attempts = (some m, idx2) →
      daily m < 8 ∧ weekly m < 40 ∧ m < n ∧ idx2 < n := by
  intro attempts
  induction attempts with
  | zero =>
    intro idx m idx2 _ h
    simp [scanRotation] at h
  | succ a ih =>
    intro idx m idx2 hidx h
    rw [scanRotation] at h
    split_ifs at h with hc
    · rw [Prod.mk.injEq, Option.some.injEq] at h
      obtain ⟨rfl, rfl⟩ := h
      exact ⟨hc.1, hc.2, hidx, Nat.mod_lt _ hn⟩
    · exact ih ((idx + 1) % n) m idx2 (Nat.mod_lt _ hn) h

/-- If some member within the next `attempts` rotation steps passes the
checks, the scan does not fail. -/
theorem scanRotation_finds (n : Nat) (hn : 0 < n) (daily weekly : Nat → Nat) :
    ∀ (attempts idx : Nat), idx < n →
      (∃ j, j < attempts ∧ daily ((idx + j) % n) < 8 ∧ weekly ((idx + j) % n) < 40) →
      (scanRotation n daily weekly idx attempts).1 ≠ none := by
  intro attempts
  induction attempts with
  | zero =>
    rintro idx _ ⟨j, hj, _⟩
    omega
  | succ a ih =>
    rintro idx hidx ⟨j, hj, hd, hw⟩
    rw [scanRotation]
    split_ifs with hc
    · simp
    · apply ih ((idx + 1) % n) (Nat.mod_lt _ hn)
      cases j with
      | zero =>
        rw [Nat.add_zero, Nat.mod_eq_of_lt hidx] at hd hw
        exact absurd ⟨hd, hw⟩ hc
      | succ j0 =>
        refine ⟨j0, by omega, ?_, ?_⟩ <;>
          rw [Nat.mod_add_mod, show idx + 1 + j0 = idx + (j0 + 1) by omega] <;>
          assumption

/-- Every member `m < n` is reached from any cursor within `n` rotation
steps. -/
theorem exists_rotation_offset (n idx m : Nat) (hidx : idx < n) (hm : m < n) :
    ∃ j, j < n ∧ (idx + j) % n = m := by
  refine ⟨(m + n - idx) % n, Nat.mod_lt _ (by omega), ?_⟩
  rw [Nat.add_mod_mod, show idx + (m + n - idx) = m + n by omega,
      Nat.add_mod_right, Nat.mod_eq_of_lt hm]

/-- Bumping a member inside the summation range raises the total by one. -/
theorem sum_range_bump (n m : Nat) (f : Nat → Nat) (hm : m < n) :
    ∑ x ∈ Finset.range n, bump f m x = (∑ x ∈ Finset.range n, f x) + 1 := by
  have h1 : ∀ x ∈ Finset.range n, bump f m x = f x + (if x = m then 1 else 0) := by
    intro x _
    unfold bump
    split_ifs <;> omega
  rw [Finset.sum_congr rfl h1, Finset.sum_add_distrib,
      Finset.sum_ite_eq' (Finset.range n) m (fun _ => 1),
      if_pos (Finset.mem_range.mpr hm)]

/-- The loop state invariant of `assign_members_with_daily_limits` within one
day, after `used` slots have been assigned through the within-limit path:
the weekly dict mirrors the daily dict (both are reset at the start of each
day and bumped together), every counter is at most 8, only real members have
nonzero counters, the counters sum to `used`, and the cursor is in range. -/
def DayInv (n used : Nat) (st : DayState) : Prop :=
  (∀ x, st.weekly x = st.daily x) ∧
  (∀ x, st.daily x ≤ 8) ∧
  (∀ x, n ≤ x → st.daily x = 0) ∧
  (∑ x ∈ Finset.range n, st.daily x) = used ∧
  st.memberIndex < n

/-- Main invariant run: with at least 3 members and at most 24 slots in the
day, every slot is assigned through the within-limit path (no emergency), the
assigned members are real, the daily dict counts exactly the assignments made,
and the invariant is maintained. -/
theorem assignSlots_spec (n : Nat) (hn : 3 ≤ n) :
    ∀ (k used : Nat) (st : DayState), DayInv n used st → used + k ≤ 24 →
      (∀ p ∈ (assignSlots n k st).1, p.2 = false ∧ p.1 < n) ∧
      (∀ m, ((assignSlots n k st).2).daily m
              = st.daily m + (((assignSlots n k st).1.map Prod.fst).count m)) ∧
      DayInv n (used + k) (assignSlots n k st).2 := by
  intro k
  induction k with
  | zero =>
    intro used st hInv _
    simpa [assignSlots] using hInv
  | succ k ih =>
    intro used st hInv hle
    obtain ⟨hwd, hd8, hout, hsum, hidx⟩ := hInv
    have hn0 : 0 < n := by omega
    -- pigeonhole: some member is still below the daily cap
    have hex : ∃ m, m < n ∧ st.daily m < 8 := by
      by_contra hcon
      push_neg at hcon
      have h8 : ∀ x ∈ Finset.range n, 8 ≤ st.daily x := fun x hx =>
        hcon x (Finset.mem_range.mp hx)
      have hge : 8 * n ≤ ∑ x ∈ Finset.range n, st.daily x := by
        calc 8 * n = ∑ _x ∈ Finset.range n, 8 := by
              rw [Finset.sum_const, Finset.card_range, smul_eq_mul, Nat.mul_comm]
          _ ≤ _ := Finset.sum_le_sum h8
      omega
    obtain ⟨m, hmn, hm8⟩ := hex
    obtain ⟨j, hjn, hjm⟩ := exists_rotation_offset n st.memberIndex m hidx hmn
    have hfound : (scanRotation n st.daily st.weekly st.memberIndex n).1 ≠ none := by
      refine scanRotation_finds n hn0 st.daily st.weekly n st.memberIndex hidx
        ⟨j, hjn, ?_, ?_⟩
      · rw [hjm]; exact hm8
      · rw [hjm, hwd]; omega
    rcases hscan : scanRotation n st.daily st.weekly st.memberIndex n with ⟨found, idx2⟩
    cases found with
    | none => exact absurd (by rw [hscan]) hfound
    | some m2 =>
      obtain ⟨hm2d, hm2w, hm2n, hidx2⟩ :=
        scanRotation_some_spec n hn0 st.daily st.weekly n st.memberIndex m2 idx2 hidx hscan
      have hslot : assignSlot n st =
          ((m2, false), ⟨bump st.daily m2, bump st.weekly m2, idx2⟩) := by
        rw [assignSlot, hscan]
      have hInv2 : DayInv n (used + 1) ⟨bump st.daily m2, bump st.weekly m2, idx2⟩ := by
        refine ⟨?_, ?_, ?_, ?_, hidx2⟩
        · intro x
          show bump st.weekly m2 x = bump st.daily m2 x
          unfold bump
          rw [hwd x]
        · intro x
          show bump st.daily m2 x ≤ 8
          unfold bump
          split_ifs with h
          · subst h; have := hm2d; omega
          · exact hd8 x
        · intro x hx
          show bump st.daily m2 x = 0
          unfold bump
          split_ifs with h
          · subst h; omega
          · exact hout x hx
        · show (∑ x ∈ Finset.range n, bump st.daily m2 x) = used + 1
          rw [sum_range_bump n m2 st.daily hm2n, hsum]
      have hrest := ih (used + 1) ⟨bump st.daily m2, bump st.weekly m2, idx2⟩ hInv2 (by omega)
      obtain ⟨hAll, hCount, hInvF⟩ := hrest
      have hunf : assignSlots n (k + 1) st =
          ((m2, false) :: (assignSlots n k ⟨bump st.daily m2, bump st.weekly m2, idx2⟩).1,
           (assignSlots n k ⟨bump st.daily m2, bump st.weekly m2, idx2⟩).2) := by
        show ((assignSlot n st).1 :: (assignSlots n k (assignSlot n st).2).1,
              (assignSlots n k (assignSlot n st).2).2) = _
        rw [hslot]
      rw [hunf]
      refine ⟨?_, ?_, ?_⟩
      · intro p hp
        rcases List.mem_cons.mp hp with h | h
        · subst h; exact ⟨rfl, hm2n⟩
        · exact hAll p h
      · intro m
        have hc := hCount m
        by_cases hmm : m = m2
        · subst hmm
          simp only [List.map_cons, List.count_cons_self]
          rw [hc]
          unfold bump
          simp
          omega
        · simp only [List.map_cons, List.count_cons_of_ne hmm]
          rw [hc]
          unfold bump
          dsimp only
          rw [if_neg hmm]
      · rw [show used + (k + 1) = used + 1 + k by omega]
        exact hInvF
/-- The slot loop emits one assignment per slot. -/
theorem assignSlots_length (n : Nat) :
    ∀ (k : Nat) (st : DayState), (assignSlots n k st).1.length = k := by
  intro k
  induction k with
  | zero => intro st; rfl
  | succ k ih =>
    intro st
    show ((assignSlot n st).1 :: (assignSlots n k (assignSlot n st).2).1).length = k + 1
    rw [List.length_cons, ih]

/-- The fresh per-day state satisfies the loop invariant with zero slots
assigned. -/
theorem initDayState_inv (n : Nat) (hn : 0 < n) : DayInv n 0 initDayState := by
  refine ⟨fun _ => rfl, fun _ => by show (0 : Nat) ≤ 8; omega, fun _ _ => rfl, ?_, hn⟩
  simp [initDayState]

/-- For a team of at least 3 members, a 24-slot day is fully covered through
the within-limit path: no emergency assignment fires and every member receives
at most 8 of the day's slots. -/
theorem dayPattern_spec (n : Nat) (hn : 3 ≤ n) :
    (∀ p ∈ (assignSlots n 24 initDayState).1, p.2 = false ∧ p.1 < n) ∧
    ∀ m, ((assignSlots n 24 initDayState).1.map Prod.fst).count m ≤ 8 := by
  obtain ⟨hAll, hCount, hInv⟩ :=
    assignSlots_spec n hn 24 0 initDayState (initDayState_inv n (by omega)) (by omega)
  refine ⟨hAll, fun m => ?_⟩
  have h := hCount m
  have h8 := hInv.2.1 m
  rw [show initDayState.daily m = 0 from rfl] at h
  omega

/-- Applying an assignment pattern preserves every field except
`assigned_member`. -/
theorem applyPattern_fields (P : Nat → Nat → Bool → Prop) :
    ∀ (ds : List Timeslot) (pat : List (Nat × Bool)),
      (∀ t ∈ ds, P t.startHour t.endHour t.isBreak) →
      ∀ t ∈ applyPattern ds pat, P t.startHour t.endHour t.isBreak := by
  intro ds
  induction ds with
  | nil => intro pat _ t ht; simp [applyPattern] at ht
  | cons d ds ih =>
    intro pat hds t ht
    cases pat with
    | nil => exact hds t ht
    | cons p ps =>
      rcases List.mem_cons.mp ht with h | h
      · subst h; exact hds d (List.mem_cons_self d ds)
      · exact ih ps (fun u hu => hds u (List.mem_cons_of_mem d hu)) t h

/-- When the pattern covers the whole day, every produced slot carries an
assigned member. -/
theorem applyPattern_assigned :
    ∀ (ds : List Timeslot) (pat : List (Nat × Bool)), ds.length ≤ pat.length →
      ∀ t ∈ applyPattern ds pat, t.assigned ≠ none := by
  intro ds
  induction ds with
  | nil => intro pat _ t ht; simp [applyPattern] at ht
  | cons d ds ih =>
    intro pat hlen t ht
    cases pat with
    | nil => simp at hlen
    | cons p ps =>
      rcases List.mem_cons.mp ht with h | h
      · subst h; exact Option.some_ne_none p.1
      · exact ih ps (by simpa using hlen) t h

/-- The number of produced slots assigned to member `m` equals the number of
times the pattern names `m`. -/
theorem applyPattern_countP (m : Nat) :
    ∀ (ds : List Timeslot) (pat : List (Nat × Bool)), ds.length = pat.length →
      (applyPattern ds pat).countP (fun t => t.assigned = some m)
        = (pat.map Prod.fst).count m := by
  intro ds
  induction ds with
  | nil =>
    intro pat hlen
    have hp : pat = [] := List.length_eq_zero.mp hlen.symm
    subst hp
    rfl
  | cons d ds ih =>
    intro pat hlen
    cases pat with
    | nil => simp at hlen
    | cons p ps =>
      have hlen2 : ds.length = ps.length := by simpa using hlen
      show List.countP _ ({ d with assigned := some p.1 } :: applyPattern ds ps) = _
      rw [List.countP_cons, List.map_cons, ih ps hlen2]
      by_cases h : p.1 = m
      · subst h
        rw [List.count_cons_self]
        simp
      · rw [List.count_cons_of_ne (fun hc => h hc.symm)]
        simp [h]

/-- Summing unit durations over a filtered list counts the slots kept. -/
theorem sum_durations_eq_countP (p : Timeslot → Bool) :
    ∀ l : List Timeslot, (∀ t ∈ l, t.durationHours = 1) →
      ((l.filter p).map Timeslot.durationHours).sum = l.countP p := by
  intro l
  induction l with
  | nil => intro _; rfl
  | cons t ts ih =>
    intro hall
    rw [List.countP_cons, List.filter_cons]
    split_ifs with hp
    · rw [List.map_cons, List.sum_cons, hall t (List.mem_cons_self t ts),
          ih (fun u hu => hall u (List.mem_cons_of_mem t hu))]
      omega
    · rw [ih (fun u hu => hall u (List.mem_cons_of_mem t hu))]
      omega

/-- Structural facts about the generated (pre-assignment) day groups:
7 groups of 24 one-hour non-break slots. -/
theorem dailyTimeslots_facts :
    dailyTimeslots.length = 7 ∧
    ∀ ds ∈ dailyTimeslots, ds.length = 24 ∧
      ∀ t ∈ ds, t.endHour = t.startHour + 1 ∧ t.isBreak = false ∧ t.assigned = none := by
  decide



/-- C1: for every generated schedule of a team with at least 5 active members
under the default config, every non-break hourly slot of every generated day
receives a non-null assigned member, and each member's assigned hours on each
calendar date sum to at most 8. -/
theorem C1_coverage_and_daily_cap (n : Nat) (day : List Timeslot) (m : Nat)
    (hn : 5 ≤ n) (hday : day ∈ generateTimeslots n) :
    (∀ t ∈ day, t.isBreak = false → t.assigned ≠ none) ∧
    ((day.filter (fun t => t.assigned = some m)).map Timeslot.durationHours).sum ≤ 8 := by
  have hn0 : n ≠ 0 := by omega
  rw [generateTimeslots, if_neg hn0] at hday
  obtain ⟨ds, hds, rfl⟩ := List.mem_map.mp hday
  obtain ⟨hlen, hfacts⟩ := dailyTimeslots_facts.2 ds hds
  rw [hlen]
  have hpat_len : (assignSlots n 24 initDayState).1.length = 24 :=
    assignSlots_length n 24 initDayState
  obtain ⟨hAll, hCount⟩ := dayPattern_spec n (by omega)
  constructor
  · intro t ht _
    exact applyPattern_assigned ds (assignSlots n 24 initDayState).1
      (by rw [hpat_len, hlen]) t ht
  · have hdur : ∀ t ∈ applyPattern ds (assignSlots n 24 initDayState).1,
        t.durationHours = 1 := by
      intro t ht
      have h1 := applyPattern_fields (fun s e _ => e = s + 1) ds
        (assignSlots n 24 initDayState).1 (fun u hu => (hfacts u hu).1) t ht
      unfold Timeslot.durationHours
      omega
    rw [sum_durations_eq_countP _ _ hdur,
        applyPattern_countP m ds (assignSlots n 24 initDayState).1 (by rw [hpat_len, hlen])]
    exact hCount m

/-- The first generated day of the 5-member schedule, used to witness C1. -/
def c1WitnessDay : List Timeslot := (generateTimeslots 5).getD 0 []

/-- C1 witness: the theorem instantiated at a team of exactly 5 members, the
week's first day and member 0. -/
theorem C1_coverage_and_daily_cap_witness :
    5 ≤ 5 ∧ c1WitnessDay ∈ generateTimeslots 5 ∧
    ((∀ t ∈ c1WitnessDay, t.isBreak = false → t.assigned ≠ none) ∧
     ((c1WitnessDay.filter (fun t => t.assigned = some 0)).map Timeslot.durationHours).sum ≤ 8) :=
  ⟨by decide, by decide, C1_coverage_and_daily_cap 5 c1WitnessDay 0 (by decide) (by decide)⟩

/-- C2 counterexample: with exactly 5 active members, the member at rotation
position 4 is assigned 28 hours for the 168-hour week, below the claimed
lower bound of 33 (the per-day loop restarts the cursor at member 0, so the
24 = 4*5+4 hours of every day always shortchange the last member). -/
theorem C2_counterexample : memberWeekTotal 5 4 = 28 ∧ ¬ 33 ≤ memberWeekTotal 5 4 := by
  decide

/-- C2 (amended): with exactly 5 active members every member is assigned
between 28 and 35 hours for the week (positions 0-3 receive 35 each and
position 4 receives 28), and the emergency fallback never fires. -/
theorem C2_fairness_amended (m : Nat) (hm : m < 5) :
    28 ≤ memberWeekTotal 5 m ∧ memberWeekTotal 5 m ≤ 35 ∧ dayEmergencyCount 5 = 0 := by
  revert m
  decide

/-- C2 witness: the amended bounds instantiated at member 4. -/
theorem C2_fairness_amended_witness :
    4 < 5 ∧ (28 ≤ memberWeekTotal 5 4 ∧ memberWeekTotal 5 4 ≤ 35 ∧ dayEmergencyCount 5 = 0) :=
  ⟨by decide, C2_fairness_amended 4 (by decide)⟩

/-- C3: evaluation at the failing input — a team with one active member
(reachable through regeneration, which has no headcount guard).  After the
first 8 hourly slots of a day fill member 0's daily cap, the emergency branch
assigns the remaining 16 slots of that day to member 0 anyway, so member 0
ends the date with 24 assigned hours, violating the absolute 8-hour daily cap
the claim says is never overridden. -/
theorem C3_emergency_overrides_daily_cap :
    dayEmergencyCount 1 = 16 ∧
    (((generateTimeslots 1).getD 0 []).filter (fun t => t.assigned = some 0)).length = 24 ∧
    ((((generateTimeslots 1).getD 0 []).filter (fun t => t.assigned = some 0)).map
        Timeslot.durationHours).sum = 24 := by
  decide

/-- A pending, within-deadline, correctly-owned swap request (requester 1 on
the requester slot, responder 2 on the responder slot). -/
def swapPendingOk : SwapReqState :=
  { requester := 1, responder := 2, reqSlotAssigned := some 1, respSlotAssigned := some 2,
    status := SwapStatus.pending, deadline := 10, processedAt := none, rejectionReason := "" }

/-- C4 counterexample: when the responder slot's save raises after the
requester slot's save succeeded, the requester slot keeps the new assignee
while the responder slot is unchanged — neither "both slots exchanged and
processed" nor "neither slot changed" holds, refuting atomicity as claimed. -/
theorem C4_counterexample :
    ¬ (((swapPendingOk.accept 0 (some SaveFailure.responderSlotSave) "database error").2.reqSlotAssigned = some 2 ∧
        (swapPendingOk.accept 0 (some SaveFailure.responderSlotSave) "database error").2.respSlotAssigned = some 1 ∧
        (swapPendingOk.accept 0 (some SaveFailure.responderSlotSave) "database error").2.status = SwapStatus.processed) ∨
       ((swapPendingOk.accept 0 (some SaveFailure.responderSlotSave) "database error").2.reqSlotAssigned = some 1 ∧
        (swapPendingOk.accept 0 (some SaveFailure.responderSlotSave) "database error").2.respSlotAssigned = some 2)) := by
  decide

/-- C4 (amended): accept is fail-closed for the request's status — a request
that was acceptable is never left pending: with no failure both slots are
exchanged and the status becomes processed; on any save failure accept
returns False and the status becomes rejected with the exception text embedded
in the rejection reason.  (Atomicity of the two slot writes does NOT hold; see
the counterexample.) -/
theorem C4_fail_closed (s : SwapReqState) (now : Nat) (failAt : Option SaveFailure)
    (failMsg : String) (h : s.can_be_accepted now = true) :
    (s.accept now failAt failMsg).2.status ≠ SwapStatus.pending ∧
    (failAt = none →
      (s.accept now failAt failMsg).1 = true ∧
      (s.accept now failAt failMsg).2.reqSlotAssigned = s.respSlotAssigned ∧
      (s.accept now failAt failMsg).2.respSlotAssigned = s.reqSlotAssigned ∧
      (s.accept now failAt failMsg).2.status = SwapStatus.processed) ∧
    (failAt.isSome = true →
      (s.accept now failAt failMsg).1 = false ∧
      (s.accept now failAt failMsg).2.status = SwapStatus.rejected ∧
      (s.accept now failAt failMsg).2.rejectionReason = "Processing failed: " ++ failMsg) := by
  cases failAt with
  | none => simp [SwapReqState.accept, h]
  | some f => cases f <;> simp [SwapReqState.accept, h]

/-- C4 witness: the amended statement instantiated at the concrete acceptable
request with the responder-slot save failing. -/
theorem C4_fail_closed_witness :
    swapPendingOk.can_be_accepted 0 = true ∧
    ((swapPendingOk.accept 0 (some SaveFailure.responderSlotSave) "database error").2.status ≠ SwapStatus.pending ∧
     ((some SaveFailure.responderSlotSave : Option SaveFailure) = none →
       (swapPendingOk.accept 0 (some SaveFailure.responderSlotSave) "database error").1 = true ∧
       (swapPendingOk.accept 0 (some SaveFailure.responderSlotSave) "database error").2.reqSlotAssigned = swapPendingOk.respSlotAssigned ∧
       (swapPendingOk.accept 0 (some SaveFailure.responderSlotSave) "database error").2.respSlotAssigned = swapPendingOk.reqSlotAssigned ∧
       (swapPendingOk.accept 0 (some SaveFailure.responderSlotSave) "database error").2.status = SwapStatus.processed) ∧
     ((some SaveFailure.responderSlotSave : Option SaveFailure).isSome = true →
       (swapPendingOk.accept 0 (some SaveFailure.responderSlotSave) "database error").1 = false ∧
       (swapPendingOk.accept 0 (some SaveFailure.responderSlotSave) "database error").2.status = SwapStatus.rejected ∧
       (swapPendingOk.accept 0 (some SaveFailure.responderSlotSave) "database error").2.rejectionReason = "Processing failed: " ++ "database error")) :=
  ⟨by decide, C4_fail_closed swapPendingOk 0 (some SaveFailure.responderSlotSave) "database error" (by decide)⟩

/-- C5: calling the accept endpoint at or after the deadline is refused with
the endpoint's state-error response, and the swap state — including both
slots' assigned members — is returned exactly as it was before the call. -/
theorem C5_accept_after_deadline (s : SwapReqState) (now : Nat)
    (failAt : Option SaveFailure) (failMsg : String) (h : s.deadline ≤ now) :
    acceptSwapRequestView s now failAt failMsg =
      (Outcome.error "This swap request cannot be accepted", s) := by
  have hv : s.is_valid now = false := by
    unfold SwapReqState.is_valid
    rw [decide_eq_false (by omega : ¬ now < s.deadline)]
    simp
  have hc : s.can_be_accepted now = false := by
    unfold SwapReqState.can_be_accepted
    rw [hv]
    simp
  unfold acceptSwapRequestView
  rw [if_neg (by simp [hc])]

/-- A pending swap request whose deadline (hour 5) has already passed. -/
def swapPastDeadline : SwapReqState :=
  { requester := 1, responder := 2, reqSlotAssigned := some 1, respSlotAssigned := some 2,
    status := SwapStatus.pending, deadline := 5, processedAt := none, rejectionReason := "" }

/-- C5 witness: the theorem instantiated at hour 10, past the deadline 5. -/
theorem C5_accept_after_deadline_witness :
    swapPastDeadline.deadline ≤ 10 ∧
    acceptSwapRequestView swapPastDeadline 10 none "boom" =
      (Outcome.error "This swap request cannot be accepted", swapPastDeadline) :=
  ⟨by decide, C5_accept_after_deadline swapPastDeadline 10 none "boom" (by decide)⟩

/-- A requester slot that is NOT owned by the requester (assigned to member 7,
team 1, week 0). -/
def badRequesterSlot : SlotInfo :=
  { slotId := 10, teamId := 1, weekStart := 0, assignedMember := some 7, startTime := 100 }

/-- A responder slot in a different team (2) and different week (3), assigned
to member 9 rather than the responder. -/
def badResponderSlot : SlotInfo :=
  { slotId := 11, teamId := 2, weekStart := 3, assignedMember := some 9, startTime := 50 }

/-- C6: the cross-field checks (same team, same week, slot ownership, active
membership) live in SwapRequestSerializer.validate, which rejects this input,
but the creation endpoint validates with SwapRequestCreateSerializer, which
runs none of them — only the unique-pair constraint — so the SwapRequest is
created anyway. -/
theorem C6_create_skips_validation :
    swapRequestSerializerValidate 1 2 badRequesterSlot badResponderSlot true true =
      Outcome.error "Both members must be in the same team" ∧
    createSwapRequestView [] 1 2 badRequesterSlot badResponderSlot =
      Outcome.ok { requester := 1, responder := 2, requesterSlotId := 10, responderSlotId := 11,
                   deadline := 26, status := SwapStatus.pending } :=
  ⟨rfl, rfl⟩

/-- C7: with fewer than 5 active members the generate endpoint fails with the
capacity error carrying the required count (5) and the actual count, and the
stored schedule list is unchanged (no Schedule row, hence no Timeslots). -/
theorem C7_capacity_error (schedules : List ScheduleRow) (memberCount weekStart : Nat)
    (h : memberCount < 5) :
    generateScheduleView schedules memberCount weekStart =
      (schedules, Outcome.error (GenError.insufficientMembers 5 memberCount)) := by
  unfold generateScheduleView getMinTeamSizeForScheduling
  rw [if_pos h]

/-- C7 witness: a team of 3 members gets the "need 5, have 3" error and no
schedule is created. -/
theorem C7_capacity_error_witness :
    3 < 5 ∧ generateScheduleView [] 3 0 =
      ([], Outcome.error (GenError.insufficientMembers 5 3)) :=
  ⟨by decide, C7_capacity_error [] 3 0 (by decide)⟩

/-- C8: the Monday check exists only in
ScheduleCreateSerializer.validate_week_start_date (which rejects day 1, a
Tuesday), but the generate endpoint never invokes that serializer: for a
5-member team with no existing schedule it creates the Schedule for the
Tuesday start date together with its 168 timeslots. -/
theorem C8_non_monday_schedule_created :
    validateWeekStartDateField 1 = Outcome.error "Week start date must be a Monday" ∧
    (generateScheduleView [] 5 1).2 =
      Outcome.ok { weekStart := 1, dayslots := generateTimeslots 5 } ∧
    ((generateScheduleView [] 5 1).1.map (fun r => r.dayslots.flatten.length)) = [168] := by
  refine ⟨rfl, rfl, by decide⟩

/-- C9: the concrete 5-member scenario — generation produces exactly 168
hourly slots; validation (no MemberWeeklyHours rows exist on this path)
reports sufficient members, validity, and an empty error list; and the
members' assigned hours sum to 168. -/
theorem C9_concrete_five_member_week :
    (generateTimeslots 5).flatten.length = 168 ∧
    (validateScheduleFn 5 (fun _ => none) (generateTimeslots 5)).hasSufficientMembers = true ∧
    (validateScheduleFn 5 (fun _ => none) (generateTimeslots 5)).isValid = true ∧
    (validateScheduleFn 5 (fun _ => none) (generateTimeslots 5)).errors = [] ∧
    ((List.range 5).map (memberWeekTotal 5)).sum = 168 := by
  decide

/-- C10: regeneration runs with no headcount guard, so with an empty
active-member list it still rebuilds every selected schedule with all 168
hourly timeslots created and every slot's assigned member null (the
assignment pass returns early). -/
theorem C10_regenerate_with_no_members (row : ScheduleRow) (fromDate : Nat)
    (h : fromDate ≤ row.weekStart) :
    regenerateSchedulesForTeam 0 fromDate [row] =
      [{ row with dayslots := generateTimeslots 0 }] ∧
    (generateTimeslots 0).flatten.length = 168 ∧
    ∀ t ∈ (generateTimeslots 0).flatten, t.assigned = none := by
  refine ⟨?_, by decide, by decide⟩
  unfold regenerateSchedulesForTeam regenerateScheduleRow
  simp [h]

/-- A stored schedule row for week-start day 3. -/
def c10Row : ScheduleRow := { weekStart := 3, dayslots := [] }

/-- C10 witness: regenerating from day 1 with zero active members rewrites the
week-3 schedule with 168 unassigned slots. -/
theorem C10_regenerate_with_no_members_witness :
    1 ≤ c10Row.weekStart ∧
    (regenerateSchedulesForTeam 0 1 [c10Row] = [{ c10Row with dayslots := generateTimeslots 0 }] ∧
     (generateTimeslots 0).flatten.length = 168 ∧
     ∀ t ∈ (generateTimeslots 0).flatten, t.assigned = none) :=
  ⟨by decide, C10_regenerate_with_no_members c10Row 1 (by decide)⟩
